import Mathlib

/-!
Shallow embedding of the AIStore EC-GET engine (src/ec/getx.go), the factory
admission policies (src/xact/xs/etl.go and src/ec/getx.go), and the CLI blob
download batch handlers (src/unnamed/part_000), together with theorems settling
the spec claims about them.

Go maps are embedded as association lists with a first-match lookup; channels
become explicit lists of the values sent on them; side effects (AddErr, Abort,
log warnings, stats samples) become fields of an explicit engine state.
-/

namespace AIStore

/-- Errors produced by the EC engine and the CLI handlers.  Each constructor
corresponds to one `errors.New`/`fmt.Errorf` site in the source (or to an
opaque error coming from a collaborator, `apiErr`). -/
inductive ECErr where
  /-- ErrorECDisabled, returned by dispatchReq when admission is disabled. -/
  | ecDisabled : ECErr
  /-- errLossMpath in dispatchReq: the mountpath of the object has no jogger. -/
  | lossMpath (mpath : String) : ECErr
  /-- dispatchResp: no slice writer registered for this unique name. -/
  | noSliceWriter (uname : String) : ECErr
  /-- dispatchResp: failed to read a replica; the flag records whether the
  underlying error is io.ErrUnexpectedEOF (a truncated stream). -/
  | readFailed (uname : String) (unexpectedEOF : Bool) : ECErr
  /-- removeMpath: invalid or lost mountpath. -/
  | invalidMpath (mpath : String) : ECErr
  /-- an opaque error from an external collaborator (api.BlobDownload, waiters). -/
  | apiErr (msg : String) : ECErr
  deriving DecidableEq, Repr

/-- Association-list lookup embedding a Go map read `m[k]`. -/
def mget {β : Type} : List (String × β) → String → Option β
  | [], _ => none
  | p :: rest, k => if p.1 = k then some p.2 else mget rest k

/-- Association-list update embedding a Go map write `m[k] = v`. -/
def mset {β : Type} : List (String × β) → String → β → List (String × β)
  | [], k, v => [(k, v)]
  | p :: rest, k, v => if p.1 = k then (k, v) :: rest else p :: mset rest k v

/-- Association-list removal embedding a Go `delete(m, k)`. -/
def mdel {β : Type} : List (String × β) → String → List (String × β)
  | [], _ => []
  | p :: rest, k => if p.1 = k then mdel rest k else p :: mdel rest k

/-- A pending reconstruction target registered in dOwner.slices; its internals
are irrelevant to the dispatch logic, so it is an opaque tag. -/
structure Writer where
  wid : Nat
  deriving DecidableEq, Repr

/-- An EC request (src type `request`): the dispatch logic only inspects
whether the request carries an ErrCh channel. -/
structure Request where
  hasErrCh : Bool
  deriving DecidableEq, Repr

/-- A per-mountpath worker (src type `getJogger`): its mountpath, whether its
run loop has been started and not stopped, and its bounded work channel
embedded as the list of queued requests. -/
structure Jogger where
  mpath : String
  running : Bool
  workCh : List Request
  deriving DecidableEq, Repr

/-- newGetJogger constructs a jogger for a mountpath with an empty work
channel; the HTTP client configuration is irrelevant to the claims. -/
def newGetJogger (mpath : String) : Jogger :=
  { mpath := mpath, running := false, workCh := [] }

/-- Jogger.stop: signal the jogger loop to exit. -/
def Jogger.stop (j : Jogger) : Jogger :=
  { j with running := false }

/-- The XactGet engine state.  getJoggers is the mountpath table; slices is
dOwner.slices (the writer registration map); errs collects AddErr calls
(most recent first); aborted records the first Abort cause; warnings collects
nlog.Warningf output; queueStats collects stats.updateQueue samples;
finished is set by Finish inside stop. -/
structure XactGet where
  getJoggers : List (String × Jogger)
  slices : List (String × Writer)
  ecRequestsEnabled : Bool
  errs : List ECErr
  aborted : Option ECErr
  warnings : List String
  queueStats : List Nat
  finished : Bool
  deriving DecidableEq, Repr

/-- AddErr records an error on the engine. -/
def XactGet.AddErr (r : XactGet) (e : ECErr) : XactGet :=
  { r with errs := e :: r.errs }

/-- Abort records the abort cause; like Abort of the Go base xaction it only
takes effect once (the first cause wins). -/
def XactGet.Abort (r : XactGet) (e : ECErr) : XactGet :=
  match r.aborted with
  | some _ => r
  | none => { r with aborted := some e }

/-- newGetXact constructs the engine and one jogger per currently known
mountpath, iterating both the available and the disabled mountpath sets
(fs.Get).  xactReqBase.init is outside the provided sources; per the spec the
engine starts with request admission enabled. -/
def newGetXact (avail disabled : List String) : XactGet :=
  { getJoggers :=
      (avail ++ disabled).foldl (fun m mpath => mset m mpath (newGetJogger mpath)) []
  , slices := []
  , ecRequestsEnabled := true
  , errs := []
  , aborted := none
  , warnings := []
  , queueStats := []
  , finished := false }

/-- Transport opcodes as seen by XactGet.dispatchResp: only respPut (response
to a slice/replica request) is handled; any other opcode value hits the
default branch. -/
inductive Opcode where
  | respPut : Opcode
  | other (code : Nat) : Opcode
  deriving DecidableEq, Repr

/-- Outcome of streaming an inbound payload into a registered writer.
The streaming helper itself is outside the provided sources; dispatchResp only
branches on its returned error, so it is abstracted as this outcome, with the
flag telling whether the error is io.ErrUnexpectedEOF (truncated stream). -/
inductive RecvResult where
  | ok : RecvResult
  | err (unexpectedEOF : Bool) : RecvResult
  deriving DecidableEq, Repr

/-- Effects of one dispatchResp call: the engine state afterwards, whether the
default branch flagged an invalid opcode (debug assertion plus error log), and
whether the payload was streamed into a writer at all. -/
structure RespEffects where
  st : XactGet
  invalidOpcode : Bool
  received : Bool
  deriving DecidableEq, Repr

/-- XactGet.dispatchResp (src/ec/getx.go lines 105-140): on respPut, look up
the registered writer for the unique name under the dOwner lock; if absent,
AddErr a no-slice-writer error and return; if present, stream the payload
(recv); on a read error AddErr the wrapped error and, when the error is
io.ErrUnexpectedEOF, Abort the engine with it.  Any other opcode is reported
via the debug assertion and error log, touching nothing else. -/
def XactGet.dispatchResp (r : XactGet) (op : Opcode) (uname : String)
    (recv : Writer → RecvResult) : RespEffects :=
  match op with
  | .respPut =>
    match mget r.slices uname with
    | none =>
      { st := r.AddErr (.noSliceWriter uname), invalidOpcode := false, received := false }
    | some writer =>
      match recv writer with
      | .ok => { st := r, invalidOpcode := false, received := true }
      | .err eof =>
        let errN : ECErr := .readFailed uname eof
        let r1 := r.AddErr errN
        if eof then
          { st := r1.Abort errN, invalidOpcode := false, received := true }
        else
          { st := r1, invalidOpcode := false, received := true }
  | .other _ =>
    { st := r, invalidOpcode := true, received := false }

/-- Effects of one dispatchReq call: the engine state afterwards, the values
sent on the ErrCh of the request, whether that channel was closed, and the
return value of the function (none embeds a nil error). -/
structure ReqEffects where
  st : XactGet
  errChSent : List ECErr
  errChClosed : Bool
  ret : Option ECErr
  deriving DecidableEq, Repr

/-- XactGet.dispatchReq (src/ec/getx.go lines 162-183): if admission is
disabled, send ErrorECDisabled on the ErrCh of the request when present, close that
channel, and return the error; otherwise look up the jogger for the
mountpath, and if it is missing, Abort with a lost-mountpath error and return
it; otherwise sample the queue length into the stats and enqueue the request
on the work channel of that jogger. -/
def XactGet.dispatchReq (r : XactGet) (req : Request) (mpath : String) : ReqEffects :=
  if r.ecRequestsEnabled then
    match mget r.getJoggers mpath with
    | none =>
      let e : ECErr := .lossMpath mpath
      { st := r.Abort e, errChSent := [], errChClosed := false, ret := some e }
    | some jogger =>
      let r1 := { r with queueStats := jogger.workCh.length :: r.queueStats }
      let jogger1 := { jogger with workCh := jogger.workCh ++ [req] }
      { st := { r1 with getJoggers := mset r1.getJoggers mpath jogger1 }
      , errChSent := [], errChClosed := false, ret := none }
  else
    { st := r
    , errChSent := if req.hasErrCh then [.ecDisabled] else []
    , errChClosed := req.hasErrCh
    , ret := some .ecDisabled }

/-- XactGet.addMpath (src/ec/getx.go lines 291-300): a mountpath already in
the jogger table only logs a warning; otherwise a fresh jogger is created,
registered, and its run loop started. -/
def XactGet.addMpath (r : XactGet) (mpath : String) : XactGet :=
  match mget r.getJoggers mpath with
  | some _ =>
    { r with warnings :=
        ("Attempted to add already existing mountpath: " ++ mpath) :: r.warnings }
  | none =>
    let getJog := { (newGetJogger mpath) with running := true }
    { r with getJoggers := mset r.getJoggers mpath getJog }

/-- XactGet.removeMpath (src/ec/getx.go lines 302-312): a mountpath absent
from the jogger table is an invariant violation, reported by aborting the
engine with the error; the jogger of a known mountpath is stopped and deleted. -/
def XactGet.removeMpath (r : XactGet) (mpath : String) : XactGet :=
  match mget r.getJoggers mpath with
  | none => r.Abort (.invalidMpath mpath)
  | some _ => { r with getJoggers := mdel r.getJoggers mpath }

/-- XactGet.stop (src/ec/getx.go lines 236-244): stop the demand base, stop
every jogger, and Finish the engine. -/
def XactGet.stop (r : XactGet) : XactGet :=
  { r with getJoggers := r.getJoggers.map (fun p => (p.1, p.2.stop))
         , finished := true }

/-- Control messages carried by RequestsControlMsg on the control channel. -/
inductive CtlAction where
  | enableRequests : CtlAction
  | clearRequests : CtlAction
  deriving DecidableEq, Repr

/-- Event sources multiplexed by the select in XactGet.Run. -/
inductive LoopEvent where
  | statsTick : LoopEvent
  | mpathAttach (mpath : String) : LoopEvent
  | mpathDetach (mpath : String) : LoopEvent
  | idleTimeout : LoopEvent
  | ctl (msg : CtlAction) : LoopEvent
  | abortFired : LoopEvent
  deriving DecidableEq, Repr

/-- Result of handling one event in the Run loop: the engine state afterwards
and whether the loop returned (exited for good). -/
structure StepResult where
  st : XactGet
  exitsLoop : Bool
  deriving DecidableEq, Repr

/-- One iteration of the select in XactGet.Run (src/ec/getx.go lines 198-231):
a stats tick only logs; mountpath events call addMpath/removeMpath; the idle
timer stops the engine and returns; an EnableRequests control message
re-enables admission and the loop continues; a ClearRequests control message
disables admission, stops the engine, and returns; a fired abort channel stops
the engine and returns. -/
def XactGet.runStep (r : XactGet) (ev : LoopEvent) : StepResult :=
  match ev with
  | .statsTick => { st := r, exitsLoop := false }
  | .mpathAttach mpath => { st := r.addMpath mpath, exitsLoop := false }
  | .mpathDetach mpath => { st := r.removeMpath mpath, exitsLoop := false }
  | .idleTimeout => { st := r.stop, exitsLoop := true }
  | .ctl .enableRequests =>
    { st := { r with ecRequestsEnabled := true }, exitsLoop := false }
  | .ctl .clearRequests =>
    { st := XactGet.stop { r with ecRequestsEnabled := false }, exitsLoop := true }
  | .abortFired => { st := r.stop, exitsLoop := true }

/-- Admission decisions a factory may return when a previous instance of its
kind is running (xreg.WPR). -/
inductive WPR where
  | wprAbort : WPR
  | wprUse : WPR
  | wprKeepAndStartNew : WPR
  deriving DecidableEq, Repr

/-- The previously running instance handed to WhenPrevIsRunning; the policies
under study never inspect it, so only its identity matters. -/
structure Renewable where
  kind : String
  uuid : String
  deriving DecidableEq, Repr

/-- The inline-ETL factory (src/xact/xs/etl.go); its only state is the renew
arguments. -/
structure EtlFactory where
  args : Renewable
  deriving DecidableEq, Repr

/-- The EC-GET factory (src/ec/getx.go); its only state is the bucket-scoped
renew base. -/
structure GetFactory where
  base : Renewable
  deriving DecidableEq, Repr

/-- etlFactory.WhenPrevIsRunning (src/xact/xs/etl.go lines 53-55): always
WprKeepAndStartNew with a nil error. -/
def EtlFactory.WhenPrevIsRunning (_p : EtlFactory) (_prev : Renewable) :
    WPR × Option ECErr :=
  (.wprKeepAndStartNew, none)

/-- getFactory.WhenPrevIsRunning (src/ec/getx.go lines 79-82): fires a debug
assertion (the registry should have short-circuited) but always returns
WprUse with a nil error. -/
def GetFactory.WhenPrevIsRunning (_p : GetFactory) (_prev : Renewable) :
    WPR × Option ECErr :=
  (.wprUse, none)

/-- Result of blobStartAll (src/unnamed/part_000 lines 142-164): the returned
job-id list (none embeds Go nil), the count of actually started jobs, the
returned error, and the job ids passed to xstop during rollback (in call
order). -/
structure StartAllOut where
  xids : Option (List String)
  cnt : Nat
  err : Option ECErr
  stopped : List String
  deriving DecidableEq, Repr

/-- Loop body of blobStartAll: dl is api.BlobDownload restricted to the fixed
bucket and message; acc holds the xids gathered so far (in submission order)
and cnt the number of non-empty ones.  On the first download error the loop
calls xstop on every xid gathered so far and returns nil, 0, and the error;
an empty returned xid only prints an already-downloaded notice. -/
def blobStartAllGo (dl : String → Except ECErr String) :
    List String → Nat → List String → StartAllOut
  | acc, cnt, [] => { xids := some acc, cnt := cnt, err := none, stopped := [] }
  | acc, cnt, objName :: rest =>
    match dl objName with
    | .error e => { xids := none, cnt := 0, err := some e, stopped := acc }
    | .ok xid =>
      blobStartAllGo dl (acc ++ [xid]) (if xid = "" then cnt else cnt + 1) rest

/-- blobStartAll (src/unnamed/part_000 lines 142-164). -/
def blobStartAll (objNames : List String) (dl : String → Except ECErr String) :
    StartAllOut :=
  blobStartAllGo dl [] 0 objNames

/-- First error sent on the buffered errCh, if any: the select after wg.Wait
reads one buffered value when present, and the channel receives errors in
completion order. -/
def firstErr (outs : List (Option ECErr)) : Option ECErr :=
  match outs.filterMap id with
  | [] => none
  | e :: _ => some e

/-- The wait-multiple branch of blobDownloadHandler (src/unnamed/part_000
lines 106-134).  The handler calls wg.Add(len(objNames)), then for every
pair (objName, xid) with a non-empty xid spawns a goroutine that runs
waitOne (the _blobWaitOne call), sends its error, if any, on errCh, and calls
wg.Done; pairs with an empty xid are skipped by continue WITHOUT wg.Done.
wg.Wait therefore returns exactly when the number of spawned goroutines
equals len(objNames); the embedding returns none when wg.Wait blocks forever
and some result when the handler reaches the select that drains errCh.
Goroutine completion order is modelled as spawn order. -/
def waitMultipleBlob (objNames xids : List String)
    (waitOne : String → String → Option ECErr) : Option (Option ECErr) :=
  let pairs := (objNames.zip xids).filter (fun p => p.2 ≠ "")
  if pairs.length = objNames.length then
    some (firstErr (pairs.map (fun p => waitOne p.1 p.2)))
  else
    none

/-- Value carried by a successful api.BlobDownload call; used to name the
job id a download oracle returns (the error case is never consulted). -/
def exVal : Except ECErr String → String
  | .ok x => x
  | .error _ => ""

/-- Number of non-empty job ids in a list, mirroring the cnt accumulation of
blobStartAll (an empty id means the object was already downloaded). -/
def countStarted : List String → Nat
  | [] => 0
  | x :: rest => (if x = "" then 0 else 1) + countStarted rest

/-- A sample download oracle: object a starts job x1, object c needs nothing
(empty id), object b fails. -/
def dlDemo : String → Except ECErr String :=
  fun o =>
    if o = "b" then .error (.apiErr "boom")
    else if o = "a" then .ok "x1"
    else .ok ""

/-!
Helper lemmas about the association-list map operations.
-/

theorem mget_mset_self {β : Type} (m : List (String × β)) (k : String) (v : β) :
    mget (mset m k v) k = some v := by
  induction m with
  | nil => simp [mget, mset]
  | cons p rest ih =>
    by_cases h : p.1 = k
    · simp [mget, mset, h]
    · simp [mget, mset, h, ih]

theorem mget_mset_ne {β : Type} (m : List (String × β)) (k k2 : String) (v : β)
    (h : k ≠ k2) : mget (mset m k v) k2 = mget m k2 := by
  induction m with
  | nil => simp [mget, mset, h]
  | cons p rest ih =>
    by_cases hp : p.1 = k
    · simp [mget, mset, hp, h]
    · by_cases hp2 : p.1 = k2
      · have hk : k2 ≠ k := fun hh => h hh.symm
        simp [mget, mset, hp, hp2, hk]
      · simp [mget, mset, hp, hp2, ih]

theorem mget_mdel_self {β : Type} (m : List (String × β)) (k : String) :
    mget (mdel m k) k = none := by
  induction m with
  | nil => simp [mget, mdel]
  | cons p rest ih =>
    by_cases h : p.1 = k
    · simp [mdel, h, ih]
    · simp [mget, mdel, h, ih]

theorem mget_mdel_ne {β : Type} (m : List (String × β)) (k k2 : String)
    (h : k ≠ k2) : mget (mdel m k) k2 = mget m k2 := by
  induction m with
  | nil => simp [mget, mdel]
  | cons p rest ih =>
    by_cases hp : p.1 = k
    · have hp2 : p.1 ≠ k2 := by
        rw [hp]
        exact h
      simp [mget, mdel, hp, hp2, ih, h]
    · by_cases hp2 : p.1 = k2
      · have hk : k2 ≠ k := fun hh => h hh.symm
        simp [mget, mdel, hp, hp2, hk]
      · simp [mget, mdel, hp, hp2, ih]

theorem mget_fold_newGetJogger (l : List String) (init : List (String × Jogger))
    (m : String) :
    mget (l.foldl (fun t mpath => mset t mpath (newGetJogger mpath)) init) m
      = if m ∈ l then some (newGetJogger m) else mget init m := by
  induction l generalizing init with
  | nil => simp [List.foldl]
  | cons a rest ih =>
    simp only [List.foldl]
    rw [ih]
    by_cases hm : m ∈ rest
    · simp [hm]
    · by_cases ha : m = a
      · subst ha
        simp [hm, mget_mset_self]
      · have : a ≠ m := fun h => ha h.symm
        simp [hm, ha, mget_mset_ne _ _ _ _ this]

/-!
Claim theorems.
-/

/-- Claim C1: when an inbound respPut slice response for a registered writer
ends in a truncated stream (the writer receive reports io.ErrUnexpectedEOF),
dispatchResp records the read error on the engine and calls Abort with it, so
that the abort-channel case of the Run loop then stops the engine into the
Finished state with that abort cause; and for any opcode other than respPut no
writer is touched (the engine state is unchanged) and the violation is flagged
as an internal error. -/
theorem dispatchResp_truncated_read_aborts (r : XactGet) (uname : String)
    (w : Writer) (recv : Writer → RecvResult) (code : Nat)
    (hw : mget r.slices uname = some w)
    (heof : recv w = .err true)
    (hab : r.aborted = none) :
    ((r.dispatchResp .respPut uname recv).st.errs
        = ECErr.readFailed uname true :: r.errs) ∧
    ((r.dispatchResp .respPut uname recv).st.aborted
        = some (ECErr.readFailed uname true)) ∧
    (((r.dispatchResp .respPut uname recv).st.runStep .abortFired).st.finished
        = true) ∧
    (((r.dispatchResp .respPut uname recv).st.runStep .abortFired).st.aborted
        = some (ECErr.readFailed uname true)) ∧
    (((r.dispatchResp .respPut uname recv).st.runStep .abortFired).exitsLoop
        = true) ∧
    (r.dispatchResp (.other code) uname recv
        = { st := r, invalidOpcode := true, received := false }) := by
  simp [XactGet.dispatchResp, hw, heof, XactGet.AddErr, XactGet.Abort, hab,
    XactGet.runStep, XactGet.stop]

/-- Witness for C1: a concrete engine with one registered writer, whose
receive ends in an unexpected EOF. -/
theorem dispatchResp_truncated_read_aborts_witness :
    (let r : XactGet :=
      { getJoggers := [], slices := [("n1/bck/obj", { wid := 7 })]
      , ecRequestsEnabled := true, errs := [], aborted := none
      , warnings := [], queueStats := [], finished := false }
     ((r.dispatchResp .respPut "n1/bck/obj" (fun _ => .err true)).st.aborted
        = some (ECErr.readFailed "n1/bck/obj" true)) ∧
     (((r.dispatchResp .respPut "n1/bck/obj"
          (fun _ => .err true)).st.runStep .abortFired).st.finished = true)) := by
  have h := dispatchResp_truncated_read_aborts
    { getJoggers := [], slices := [("n1/bck/obj", { wid := 7 })]
    , ecRequestsEnabled := true, errs := [], aborted := none
    , warnings := [], queueStats := [], finished := false }
    "n1/bck/obj" { wid := 7 } (fun _ => .err true) 0
    (by simp [mget]) rfl rfl
  exact ⟨h.2.1, h.2.2.1⟩

/-- Claim C2: an inbound respPut slice response whose unique name has no
registered writer only records a no-slice-writer error: the rest of the engine
state (including the registration map) is untouched, nothing is streamed, and
the outcome does not depend on the payload at all. -/
theorem dispatchResp_no_writer_reports (r : XactGet) (uname : String)
    (recv recv2 : Writer → RecvResult)
    (hw : mget r.slices uname = none) :
    ((r.dispatchResp .respPut uname recv).st
        = { r with errs := ECErr.noSliceWriter uname :: r.errs }) ∧
    ((r.dispatchResp .respPut uname recv).st.slices = r.slices) ∧
    ((r.dispatchResp .respPut uname recv).received = false) ∧
    (r.dispatchResp .respPut uname recv = r.dispatchResp .respPut uname recv2) := by
  simp [XactGet.dispatchResp, hw, XactGet.AddErr]

/-- Witness for C2: a concrete engine with an empty registration map and a
response for an unregistered unique name. -/
theorem dispatchResp_no_writer_reports_witness :
    (let r : XactGet :=
      { getJoggers := [], slices := [], ecRequestsEnabled := true
      , errs := [], aborted := none, warnings := [], queueStats := []
      , finished := false }
     ((r.dispatchResp .respPut "n1/bck/obj" (fun _ => .ok)).st.errs
        = [ECErr.noSliceWriter "n1/bck/obj"]) ∧
     ((r.dispatchResp .respPut "n1/bck/obj" (fun _ => .ok)).received = false)) := by
  have h := dispatchResp_no_writer_reports
    { getJoggers := [], slices := [], ecRequestsEnabled := true
    , errs := [], aborted := none, warnings := [], queueStats := []
    , finished := false }
    "n1/bck/obj" (fun _ => .ok) (fun _ => .err false) rfl
  refine ⟨?_, h.2.2.1⟩
  rw [h.1]

/-- Claim C4: a request submitted while admission is disabled is rejected
without any other effect: dispatchReq returns ErrorECDisabled, sends that
error on the ErrCh of the request exactly when the request has one (closing
the channel), and leaves the whole engine state, including every jogger queue
and the stats, unchanged. -/
theorem dispatchReq_disabled_rejects (r : XactGet) (req : Request)
    (mpath : String) (hdis : r.ecRequestsEnabled = false) :
    r.dispatchReq req mpath =
      { st := r
      , errChSent := if req.hasErrCh then [ECErr.ecDisabled] else []
      , errChClosed := req.hasErrCh
      , ret := some ECErr.ecDisabled } := by
  simp [XactGet.dispatchReq, hdis]

/-- Witness for C4: a concrete disabled engine and a request carrying an
error channel. -/
theorem dispatchReq_disabled_rejects_witness :
    (let r : XactGet :=
      { getJoggers := [("m1", newGetJogger "m1")], slices := []
      , ecRequestsEnabled := false, errs := [], aborted := none
      , warnings := [], queueStats := [], finished := false }
     r.dispatchReq { hasErrCh := true } "m1" =
      { st := r, errChSent := [ECErr.ecDisabled], errChClosed := true
      , ret := some ECErr.ecDisabled }) := by
  exact dispatchReq_disabled_rejects
    { getJoggers := [("m1", newGetJogger "m1")], slices := []
    , ecRequestsEnabled := false, errs := [], aborted := none
    , warnings := [], queueStats := [], finished := false }
    { hasErrCh := true } "m1" rfl

/-- Claim C7: both admission policies are constants of their kind: the
inline-ETL factory always answers WprKeepAndStartNew and the EC-GET factory
always answers WprUse (each with a nil error), independently of the factory
instance and of the previously running instance handed in. -/
theorem whenPrevIsRunning_constant (p q : EtlFactory) (g k : GetFactory)
    (prev prev2 : Renewable) :
    (p.WhenPrevIsRunning prev = (WPR.wprKeepAndStartNew, none)) ∧
    (g.WhenPrevIsRunning prev = (WPR.wprUse, none)) ∧
    (p.WhenPrevIsRunning prev = q.WhenPrevIsRunning prev2) ∧
    (g.WhenPrevIsRunning prev = k.WhenPrevIsRunning prev2) := by
  simp [EtlFactory.WhenPrevIsRunning, GetFactory.WhenPrevIsRunning]

/-- Witness for C7: concrete factories and previous instances. -/
theorem whenPrevIsRunning_constant_witness :
    (EtlFactory.WhenPrevIsRunning { args := { kind := "etl-inline", uuid := "u1" } }
        { kind := "etl-inline", uuid := "u0" }
      = (WPR.wprKeepAndStartNew, none)) ∧
    (GetFactory.WhenPrevIsRunning { base := { kind := "ec-get", uuid := "u2" } }
        { kind := "ec-get", uuid := "u3" }
      = (WPR.wprUse, none)) := by
  have h := whenPrevIsRunning_constant
    { args := { kind := "etl-inline", uuid := "u1" } }
    { args := { kind := "etl-inline", uuid := "u1" } }
    { base := { kind := "ec-get", uuid := "u2" } }
    { base := { kind := "ec-get", uuid := "u2" } }
    { kind := "etl-inline", uuid := "u0" }
    { kind := "ec-get", uuid := "u3" }
  exact ⟨h.1, by
    have h2 := (whenPrevIsRunning_constant
      { args := { kind := "etl-inline", uuid := "u1" } }
      { args := { kind := "etl-inline", uuid := "u1" } }
      { base := { kind := "ec-get", uuid := "u2" } }
      { base := { kind := "ec-get", uuid := "u2" } }
      { kind := "ec-get", uuid := "u3" }
      { kind := "ec-get", uuid := "u3" }).2.1
    exact h2⟩

/-- Claim C3: referencing an unknown mountpath is fatal.  dispatchReq on an
object whose mountpath has no jogger returns the lost-mountpath error and
aborts the engine with it, leaving every jogger queue and the stats untouched
(the request is enqueued nowhere); and removeMpath on a mountpath absent from
the jogger table aborts the engine with an invalid-mountpath error, leaving
the table unchanged. -/
theorem unknown_mount_is_fatal (r : XactGet) (req : Request) (mpath : String)
    (hen : r.ecRequestsEnabled = true)
    (hmiss : mget r.getJoggers mpath = none)
    (hab : r.aborted = none) :
    ((r.dispatchReq req mpath).ret = some (ECErr.lossMpath mpath)) ∧
    ((r.dispatchReq req mpath).st.aborted = some (ECErr.lossMpath mpath)) ∧
    ((r.dispatchReq req mpath).st.getJoggers = r.getJoggers) ∧
    ((r.dispatchReq req mpath).st.queueStats = r.queueStats) ∧
    ((r.removeMpath mpath).aborted = some (ECErr.invalidMpath mpath)) ∧
    ((r.removeMpath mpath).getJoggers = r.getJoggers) := by
  simp [XactGet.dispatchReq, XactGet.removeMpath, hen, hmiss, XactGet.Abort, hab]

/-- Witness for C3: a concrete enabled engine whose only jogger serves "m1",
dispatching to the unknown mountpath "m2". -/
theorem unknown_mount_is_fatal_witness :
    (let r : XactGet :=
      { getJoggers := [("m1", newGetJogger "m1")], slices := []
      , ecRequestsEnabled := true, errs := [], aborted := none
      , warnings := [], queueStats := [], finished := false }
     ((r.dispatchReq { hasErrCh := false } "m2").ret
        = some (ECErr.lossMpath "m2")) ∧
     ((r.dispatchReq { hasErrCh := false } "m2").st.aborted
        = some (ECErr.lossMpath "m2")) ∧
     ((r.removeMpath "m2").aborted = some (ECErr.invalidMpath "m2"))) := by
  have h := unknown_mount_is_fatal
    { getJoggers := [("m1", newGetJogger "m1")], slices := []
    , ecRequestsEnabled := true, errs := [], aborted := none
    , warnings := [], queueStats := [], finished := false }
    { hasErrCh := false } "m2" rfl (by simp [mget]) rfl
  exact ⟨h.1, h.2.1, h.2.2.2.2.1⟩

/-- Claim C5: one jogger per known mountpath.  newGetXact registers a jogger
exactly for the mountpaths in the available and disabled sets, each jogger
belonging to its own mountpath; addMpath leaves the table unchanged on a
mountpath already present, and on a new mountpath adds exactly one started
jogger for it without touching any other entry; removeMpath on a known
mountpath removes exactly that entry. -/
theorem one_jogger_per_mount (avail disabled : List String) (r : XactGet)
    (mpath : String) :
    ((mget (newGetXact avail disabled).getJoggers mpath).isSome
        ↔ (mpath ∈ avail ∨ mpath ∈ disabled)) ∧
    (∀ j, mget (newGetXact avail disabled).getJoggers mpath = some j →
        j = newGetJogger mpath) ∧
    ((mget r.getJoggers mpath).isSome →
        (r.addMpath mpath).getJoggers = r.getJoggers) ∧
    (mget r.getJoggers mpath = none →
        mget (r.addMpath mpath).getJoggers mpath
            = some { (newGetJogger mpath) with running := true } ∧
        ∀ m2, m2 ≠ mpath →
            mget (r.addMpath mpath).getJoggers m2 = mget r.getJoggers m2) ∧
    ((mget r.getJoggers mpath).isSome →
        mget (r.removeMpath mpath).getJoggers mpath = none ∧
        ∀ m2, m2 ≠ mpath →
            mget (r.removeMpath mpath).getJoggers m2 = mget r.getJoggers m2) := by
  refine ⟨?_, ?_, ?_, ?_, ?_⟩
  · rw [show (newGetXact avail disabled).getJoggers
        = (avail ++ disabled).foldl
            (fun t mpath => mset t mpath (newGetJogger mpath)) [] from rfl]
    rw [mget_fold_newGetJogger]
    by_cases h : mpath ∈ avail ++ disabled
    · simp [h, List.mem_append.1 h]
    · simp only [List.mem_append] at h
      simp [List.mem_append, h, mget]
  · intro j hj
    rw [show (newGetXact avail disabled).getJoggers
        = (avail ++ disabled).foldl
            (fun t mpath => mset t mpath (newGetJogger mpath)) [] from rfl] at hj
    rw [mget_fold_newGetJogger] at hj
    by_cases h : mpath ∈ avail ++ disabled
    · simp [h] at hj
      exact hj.symm
    · simp [h, mget] at hj
  · intro hsome
    obtain ⟨j, hj⟩ := Option.isSome_iff_exists.1 hsome
    simp [XactGet.addMpath, hj]
  · intro hnone
    refine ⟨?_, ?_⟩
    · simp [XactGet.addMpath, hnone, mget_mset_self]
    · intro m2 hm2
      simp [XactGet.addMpath, hnone]
      exact mget_mset_ne _ _ _ _ (fun hh => hm2 hh.symm)
  · intro hsome
    obtain ⟨j, hj⟩ := Option.isSome_iff_exists.1 hsome
    refine ⟨?_, ?_⟩
    · simp [XactGet.removeMpath, hj, mget_mdel_self]
    · intro m2 hm2
      simp [XactGet.removeMpath, hj]
      exact mget_mdel_ne _ _ _ (fun hh => hm2 hh.symm)

/-- Witness for C5: a concrete engine built from one available and one
disabled mountpath, then attaching a fresh mountpath and detaching a known
one. -/
theorem one_jogger_per_mount_witness :
    (let r := newGetXact ["m1"] ["m2"]
     ((mget r.getJoggers "m1").isSome ↔ ("m1" ∈ ["m1"] ∨ "m1" ∈ ["m2"])) ∧
     (mget (r.addMpath "m3").getJoggers "m3"
        = some { (newGetJogger "m3") with running := true }) ∧
     (mget (r.removeMpath "m1").getJoggers "m1" = none)) := by
  refine ⟨(one_jogger_per_mount ["m1"] ["m2"] (newGetXact ["m1"] ["m2"]) "m1").1,
    ((one_jogger_per_mount ["m1"] ["m2"] (newGetXact ["m1"] ["m2"]) "m3").2.2.2.1
      (by simp [newGetXact, mget, mset])).1,
    ((one_jogger_per_mount ["m1"] ["m2"] (newGetXact ["m1"] ["m2"]) "m1").2.2.2.2
      (by simp [newGetXact, mget, mset])).1⟩

/-- Claim C6: in the Run loop, a ClearRequests control message disables
request admission, stops every jogger, finishes the engine, and exits the
loop (admission is left disabled by it); an EnableRequests control message
re-enables admission and the loop keeps running, and it is a no-op when
admission is already enabled. -/
theorem run_ctl_clear_and_enable (r : XactGet) :
    ((r.runStep (.ctl .clearRequests)).st.ecRequestsEnabled = false) ∧
    ((r.runStep (.ctl .clearRequests)).st.finished = true) ∧
    (∀ p ∈ (r.runStep (.ctl .clearRequests)).st.getJoggers,
        p.2.running = false) ∧
    ((r.runStep (.ctl .clearRequests)).exitsLoop = true) ∧
    ((r.runStep (.ctl .enableRequests)).st.ecRequestsEnabled = true) ∧
    ((r.runStep (.ctl .enableRequests)).exitsLoop = false) ∧
    (r.ecRequestsEnabled = true → (r.runStep (.ctl .enableRequests)).st = r) := by
  refine ⟨rfl, rfl, ?_, rfl, rfl, rfl, ?_⟩
  · intro p hp
    simp [XactGet.runStep, XactGet.stop] at hp
    obtain ⟨a, j, hj, hpe⟩ := hp
    rw [← hpe]
    rfl
  · intro hen
    cases r
    simp only [XactGet.runStep]
    simp_all

/-- Witness for C6: a concrete running engine with one started jogger and
admission enabled. -/
theorem run_ctl_clear_and_enable_witness :
    (let r : XactGet :=
      { getJoggers := [("m1", { mpath := "m1", running := true, workCh := [] })]
      , slices := [], ecRequestsEnabled := true, errs := [], aborted := none
      , warnings := [], queueStats := [], finished := false }
     ((r.runStep (.ctl .clearRequests)).st.finished = true) ∧
     ((r.runStep (.ctl .enableRequests)).st = r)) := by
  have h := run_ctl_clear_and_enable
    { getJoggers := [("m1", { mpath := "m1", running := true, workCh := [] })]
    , slices := [], ecRequestsEnabled := true, errs := [], aborted := none
    , warnings := [], queueStats := [], finished := false }
  exact ⟨h.2.1, h.2.2.2.2.2.2 rfl⟩

/-- Claim C8: addMpath is idempotent on the jogger table: applying it twice
to the same mountpath equals applying it once, and on a mountpath that is
already mapped it changes nothing but the warning log (no error is recorded,
no abort, no new jogger). -/
theorem addMpath_idempotent (r : XactGet) (mpath : String) :
    (((r.addMpath mpath).addMpath mpath).getJoggers
        = (r.addMpath mpath).getJoggers) ∧
    ((mget r.getJoggers mpath).isSome →
        (r.addMpath mpath).getJoggers = r.getJoggers ∧
        (r.addMpath mpath).errs = r.errs ∧
        (r.addMpath mpath).aborted = r.aborted ∧
        (r.addMpath mpath).warnings
            = ("Attempted to add already existing mountpath: " ++ mpath)
                :: r.warnings) := by
  constructor
  · cases hj : mget r.getJoggers mpath with
    | some j =>
      simp [XactGet.addMpath, hj]
    | none =>
      simp [XactGet.addMpath, hj, mget_mset_self]
  · intro hsome
    obtain ⟨j, hj⟩ := Option.isSome_iff_exists.1 hsome
    simp [XactGet.addMpath, hj]

/-- Witness for C8: a concrete engine holding a jogger for "m1", to which
"m1" is attached twice more. -/
theorem addMpath_idempotent_witness :
    (let r : XactGet :=
      { getJoggers := [("m1", newGetJogger "m1")], slices := []
      , ecRequestsEnabled := true, errs := [], aborted := none
      , warnings := [], queueStats := [], finished := false }
     (((r.addMpath "m1").addMpath "m1").getJoggers
        = (r.addMpath "m1").getJoggers) ∧
     ((r.addMpath "m1").getJoggers = r.getJoggers)) := by
  have h := addMpath_idempotent
    { getJoggers := [("m1", newGetJogger "m1")], slices := []
    , ecRequestsEnabled := true, errs := [], aborted := none
    , warnings := [], queueStats := [], finished := false }
    "m1"
  exact ⟨h.1, (h.2 (by simp [mget])).1⟩

/-- On a list of objects whose downloads all start successfully,
blobStartAllGo appends one job id per object to the accumulator and adds the
number of non-empty new ids to the counter. -/
theorem blobStartAllGo_all_ok (dl : String → Except ECErr String)
    (objNames : List String) :
    ∀ (acc : List String) (cnt : Nat),
      (∀ o ∈ objNames, ∃ x, dl o = .ok x) →
      blobStartAllGo dl acc cnt objNames =
        { xids := some (acc ++ objNames.map (fun o => exVal (dl o)))
        , cnt := cnt + countStarted (objNames.map (fun o => exVal (dl o)))
        , err := none, stopped := [] } := by
  induction objNames with
  | nil =>
    intro acc cnt _
    simp [blobStartAllGo, countStarted]
  | cons o rest ih =>
    intro acc cnt hok
    obtain ⟨x, hx⟩ := hok o (by simp)
    have hrest : ∀ o2 ∈ rest, ∃ x2, dl o2 = .ok x2 :=
      fun o2 h2 => hok o2 (by simp [h2])
    simp only [blobStartAllGo, hx]
    rw [ih (acc ++ [x]) (if x = "" then cnt else cnt + 1) hrest]
    by_cases hx0 : x = ""
    · simp [hx, exVal, countStarted, hx0]
    · simp [hx, exVal, countStarted, hx0]
      omega

/-- When the downloads of the first objects start successfully and then one
fails, blobStartAllGo stops every gathered job id and reports the error. -/
theorem blobStartAllGo_first_error (dl : String → Except ECErr String)
    (pre : List String) :
    ∀ (post acc : List String) (cnt : Nat) (bad : String) (e : ECErr),
      (∀ o ∈ pre, ∃ x, dl o = .ok x) → dl bad = .error e →
      blobStartAllGo dl acc cnt (pre ++ bad :: post) =
        { xids := none, cnt := 0, err := some e
        , stopped := acc ++ pre.map (fun o => exVal (dl o)) } := by
  induction pre with
  | nil =>
    intro post acc cnt bad e _ hbad
    simp [blobStartAllGo, hbad]
  | cons o rest ih =>
    intro post acc cnt bad e hok hbad
    obtain ⟨x, hx⟩ := hok o (by simp)
    have hrest : ∀ o2 ∈ rest, ∃ x2, dl o2 = .ok x2 :=
      fun o2 h2 => hok o2 (by simp [h2])
    simp only [List.cons_append, blobStartAllGo, hx, List.append_eq]
    rw [ih post (acc ++ [x]) (if x = "" then cnt else cnt + 1) bad e hrest hbad]
    simp [hx, exVal]

/-- Claim C10: blobStartAll hands the caller no partially started batch: when
every download start succeeds it returns one job id per object (empty id
meaning nothing to do), the count of actually started jobs, no error, and no
rollback; when a download start fails, every job id gathered for the earlier
objects in the list is passed to xstop (in particular every already started
download is stopped) and it returns a nil id list, count 0, and the error. -/
theorem blobStartAll_batch_atomic (objNames pre post : List String)
    (bad : String) (dl : String → Except ECErr String) (e : ECErr) :
    ((∀ o ∈ objNames, ∃ x, dl o = .ok x) →
      blobStartAll objNames dl =
        { xids := some (objNames.map (fun o => exVal (dl o)))
        , cnt := countStarted (objNames.map (fun o => exVal (dl o)))
        , err := none, stopped := [] }) ∧
    ((∀ o ∈ pre, ∃ x, dl o = .ok x) → dl bad = .error e →
      blobStartAll (pre ++ bad :: post) dl =
        { xids := none, cnt := 0, err := some e
        , stopped := pre.map (fun o => exVal (dl o)) }) := by
  constructor
  · intro hok
    rw [blobStartAll, blobStartAllGo_all_ok dl objNames [] 0 hok]
    simp
  · intro hok hbad
    rw [blobStartAll, blobStartAllGo_first_error dl pre post [] 0 bad e hok hbad]
    simp

/-- Witness for C10: the sample oracle on the batch a, c (both start fine,
one with an empty id) and on the batch a, c, b (the last one fails, the
gathered ids are rolled back). -/
theorem blobStartAll_batch_atomic_witness :
    (blobStartAll ["a", "c"] dlDemo =
      { xids := some ["x1", ""], cnt := 1, err := none, stopped := [] }) ∧
    (blobStartAll ["a", "c", "b"] dlDemo =
      { xids := none, cnt := 0, err := some (.apiErr "boom")
      , stopped := ["x1", ""] }) := by
  have hok : ∀ o ∈ (["a", "c"] : List String), ∃ x, dlDemo o = .ok x := by
    intro o ho
    simp only [List.mem_cons, List.not_mem_nil, or_false] at ho
    rcases ho with rfl | rfl
    · exact ⟨"x1", rfl⟩
    · exact ⟨"", rfl⟩
  have h := blobStartAll_batch_atomic ["a", "c"] ["a", "c"] [] "b" dlDemo
    (.apiErr "boom")
  refine ⟨?_, ?_⟩
  · rw [h.1 hok]
    rfl
  · have h2 := h.2 hok rfl
    simp only [List.cons_append, List.nil_append] at h2
    rw [h2]
    rfl

/-- Claim C9 concerns the wait-multiple path of blobDownloadHandler: the
caller should block until all started jobs finish and then get the first
collected error (or success).  The code adds len(objNames) to the wait group
but calls Done only in the goroutines spawned for non-empty job ids, so a
batch that mixes a started job with an already-downloaded object (empty job
id) never returns from wg.Wait: with objects obj1 (already downloaded, empty
id) and obj2 (job j2) the handler deadlocks (modelled as none), even though
every waiter succeeds; when every object starts a job the handler does return
the first collected error. -/
theorem waitMultipleBlob_mixed_batch_deadlocks :
    (waitMultipleBlob ["obj1", "obj2"] ["", "j2"] (fun _ _ => none) = none) ∧
    (waitMultipleBlob ["obj1", "obj2"] ["j1", "j2"]
        (fun o _ => if o = "obj2" then some (.apiErr "timeout") else none)
      = some (some (.apiErr "timeout"))) := by
  exact ⟨rfl, rfl⟩

end AIStore
